import Mathlib

/-!
Shallow embedding of the Pollen dashboard's data-normalization core
(`src/app/page.tsx`).  JavaScript numbers are modelled with exact
rationals (`ℚ`); the non-finite values NaN and ±Infinity, which the
source handles through `Number.isFinite` checks, are modelled
explicitly by `JSNum`.  Fallible string-to-number conversion returns
`Option ℚ` (`none` plays the role of NaN).
-/

namespace Pollen

/-- A JavaScript number: a finite value (modelled exactly as a rational)
or one of the non-finite values. -/
inductive JSNum where
  | fin (q : ℚ)
  | nan
  | inf
  | negInf
deriving DecidableEq

/-- A JavaScript value as far as the row parsers can observe it:
`typeof v` distinguishes numbers and strings; every other type
(null, undefined, booleans, objects) falls into the default branch. -/
inductive JSVal where
  | num (n : JSNum)
  | str (s : String)
  | nullv
  | undef
  | boolv (b : Bool)
  | obj
deriving DecidableEq

/-- Model of JavaScript `String.prototype.trim`: drop whitespace from
both ends. -/
def jsTrim (s : String) : String :=
  ⟨((s.data.dropWhile Char.isWhitespace).reverse.dropWhile Char.isWhitespace).reverse⟩

/-- Model of JavaScript `String.prototype.toLowerCase` (ASCII case map,
which is all the sentinel comparisons need). -/
def jsToLower (s : String) : String :=
  ⟨s.data.map Char.toLower⟩

/-- Value of a list of decimal digit characters. -/
def digitsVal (ds : List Char) : ℕ :=
  ds.foldl (fun a c => a * 10 + (c.toNat - 48)) 0

/-- Longest leading run of decimal digits, `none` when there is none
(`parseInt` yields NaN in that case). -/
def leadingDigits (cs : List Char) : Option ℕ :=
  let ds := cs.takeWhile Char.isDigit
  if ds.isEmpty then none else some (digitsVal ds)

/-- Model of JavaScript `parseInt(s, 10)`: skip leading whitespace, read an
optional sign and then the longest prefix of decimal digits; `none` models
the NaN result when no digit is found. -/
def jsParseInt (s : String) : Option ℤ :=
  let cs := s.toList.dropWhile Char.isWhitespace
  match cs with
  | '-' :: rest => (leadingDigits rest).map (fun n => -(n : ℤ))
  | '+' :: rest => (leadingDigits rest).map (fun n => (n : ℤ))
  | _ => (leadingDigits cs).map (fun n => (n : ℤ))

/-- Hex digit value of a lower-case hexadecimal character. -/
def hexVal (c : Char) : ℕ :=
  if c.isDigit then c.toNat - 48 else c.toNat - 87

/-- Is `c` a digit of base `b` (b ∈ {2, 8, 16}, lower-case letters only:
the source lower-cases its input before conversion)? -/
def isRadixDigit (b : ℕ) (c : Char) : Bool :=
  if b = 16 then c.isDigit || ('a' ≤ c && c ≤ 'f')
  else '0' ≤ c && c.toNat < 48 + b

/-- Value of a non-decimal integer literal body (after `0x`/`0o`/`0b`),
`none` when empty or containing an invalid digit. -/
def parseRadix (b : ℕ) (cs : List Char) : Option ℚ :=
  if cs ≠ [] ∧ cs.all (isRadixDigit b) then
    some ((cs.foldl (fun a c => a * b + hexVal c) 0 : ℕ) : ℚ)
  else none

/-- Apply a decimal exponent: `m * 10 ^ e` with the sign of the exponent
given by `pos`; the digit list must be non-empty and all digits. -/
def expVal (m : ℚ) (pos : Bool) (ds : List Char) : Option ℚ :=
  if ds.isEmpty ∨ ¬ ds.all Char.isDigit then none
  else some (if pos then m * (10 : ℚ) ^ digitsVal ds else m / (10 : ℚ) ^ digitsVal ds)

/-- Parse the optional exponent part of a decimal literal; the whole
remainder must be consumed. -/
def parseExponent (m : ℚ) (cs : List Char) : Option ℚ :=
  match cs with
  | [] => some m
  | 'e' :: rest =>
    match rest with
    | '+' :: ds => expVal m true ds
    | '-' :: ds => expVal m false ds
    | ds => expVal m true ds
  | _ => none

/-- Parse an unsigned decimal literal `digits [. digits] [e[+-]digits]`
(at least one digit before or after the point), consuming the whole
input; `none` models NaN. -/
def parseDecimal (cs : List Char) : Option ℚ :=
  let intDs := cs.takeWhile Char.isDigit
  let rest := cs.drop intDs.length
  match rest with
  | '.' :: rest2 =>
    let fracDs := rest2.takeWhile Char.isDigit
    let rest3 := rest2.drop fracDs.length
    if intDs.isEmpty ∧ fracDs.isEmpty then none
    else parseExponent ((digitsVal intDs : ℚ) + (digitsVal fracDs : ℚ) / (10 : ℚ) ^ fracDs.length) rest3
  | _ => if intDs.isEmpty then none else parseExponent (digitsVal intDs : ℚ) rest

/-- Model of JavaScript `Number(s)` on an already-trimmed string: optional
sign on a decimal literal, or an unsigned `0x`/`0o`/`0b` literal.  The
source lower-cases its input first, so the case-sensitive `Infinity`
literal can never match and is not modelled; with exact rational
arithmetic no parse overflows to Infinity.  `none` models NaN. -/
def jsNumber (s : String) : Option ℚ :=
  match s.toList with
  | '+' :: cs => parseDecimal cs
  | '-' :: cs => (parseDecimal cs).map Neg.neg
  | '0' :: 'x' :: cs => parseRadix 16 cs
  | '0' :: 'b' :: cs => parseRadix 2 cs
  | '0' :: 'o' :: cs => parseRadix 8 cs
  | cs => parseDecimal cs

/-- `Math.floor`: floors finite numbers and passes NaN and ±Infinity
through unchanged. -/
def jsFloor : JSNum → JSNum
  | JSNum.fin q => JSNum.fin ⌊q⌋
  | n => n

/-- `parseDay` (source lines 19-26): numbers are floored (note: no
finiteness check on this branch, so NaN and ±Infinity pass through);
strings go through `parseInt(·, 10)` with a NaN result replaced by 0;
any other type yields 0. -/
def parseDay : JSVal → JSNum
  | JSVal.num n => jsFloor n
  | JSVal.str v =>
    match jsParseInt v with
    | some n => JSNum.fin (n : ℚ)
    | none => JSNum.fin 0
  | _ => JSNum.fin 0

/-- The string branch of `parseDay`; the `ApiRow` fields are typed
`string` in the source, so the pipeline only ever hits this branch. -/
def parseDayS (s : String) : ℤ :=
  (jsParseInt s).getD 0

theorem parseDay_str (s : String) : parseDay (JSVal.str s) = JSNum.fin ((parseDayS s : ℤ) : ℚ) := by
  simp only [parseDay, parseDayS]
  cases h : jsParseInt s <;> simp [h]

/-- `toNumber` (source lines 28-37): finite numbers pass through,
non-finite numbers become 0; strings are trimmed and lower-cased, the
sentinels `""`, `"nan"`, `"null"`, `"undefined"` become 0, anything else
is converted with `Number(·)` and a NaN result becomes 0; any other
type yields 0. -/
def toNumber : JSVal → ℚ
  | JSVal.num (JSNum.fin q) => q
  | JSVal.num _ => 0
  | JSVal.str v =>
    let s := jsToLower (jsTrim v)
    if s = "" ∨ s = "nan" ∨ s = "null" ∨ s = "undefined" then 0
    else
      match jsNumber s with
      | some n => n
      | none => 0
  | _ => 0

/-- One raw API row (source lines 5-10); all four fields are typed
`string` in the source. -/
structure ApiRow where
  base_month_day : String
  current_month_total_amount_released : String
  record_month_total_amount_released : String
  last_year_current_month_total_amount_released : String
deriving DecidableEq

/-- One output chart point (source lines 12-17); `current` is `Option`
because the source stores `null` past today's progress. -/
structure ChartRow where
  x : ℕ
  current : Option ℚ
  lastYear : ℚ
  record : ℚ
deriving DecidableEq

/-- Metadata returned next to the chart data (source lines 70-75). -/
structure TransformMeta where
  currentMonthLen : ℤ
  recordMonthLen : ℤ
  todayDay : ℤ
  currentProgressX : ℤ
deriving DecidableEq

/-- `cumulative` (source lines 39-47), with the running accumulator made
explicit. -/
def cumulativeAux (acc : ℚ) : List ℚ → List ℚ
  | [] => []
  | v :: vs => (acc + v) :: cumulativeAux (acc + v) vs

/-- Running cumulative totals of a daily-delta list. -/
def cumulative (daily : List ℚ) : List ℚ :=
  cumulativeAux 0 daily

/-- JavaScript array indexing `arr[i] ?? fb`: the element when `i` is in
range, the fallback otherwise (also for negative `i`). -/
def getQ (l : List ℚ) (i : ℤ) (fb : ℚ) : ℚ :=
  if h : 0 ≤ i ∧ i.toNat < l.length then l.get ⟨i.toNat, h.2⟩ else fb

/-- `cumAtProgress` (source lines 49-68): resample a cumulative series of
conceptual length `L` at progress `p ∈ [0,1]` by linear interpolation. -/
def cumAtProgress (cum : List ℚ) (L : ℤ) (p : ℚ) : ℚ :=
  if L ≤ 0 then 0
  else if p ≤ 0 then 0
  else if 1 ≤ p then getQ cum (L - 1) 0
  else
    let dayFloat := p * (L : ℚ)
    let loDay := ⌊dayFloat⌋
    let hiDay := min (loDay + 1) L
    let loIndex := max (loDay - 1) (-1)
    let hiIndex := hiDay - 1
    let loValue := if 0 ≤ loIndex then getQ cum loIndex 0 else 0
    let hiValue := getQ cum hiIndex loValue
    let loPos := loDay
    let hiPos := hiDay
    if hiPos = loPos then hiValue
    else loValue + (hiValue - loValue) * ((dayFloat - (loPos : ℚ)) / ((hiPos : ℚ) - (loPos : ℚ)))

/-- Stable insertion of a row into a day-sorted list: walk past rows with a
strictly smaller parsed day, so that among equal days earlier input rows
stay first. -/
def insertByDay (r : ApiRow) : List ApiRow → List ApiRow
  | [] => [r]
  | a :: l =>
    if parseDayS a.base_month_day < parseDayS r.base_month_day then a :: insertByDay r l
    else r :: a :: l

/-- `[...rows].sort((a, b) => parseDay(a.base_month_day) - parseDay(b.base_month_day))`
(source line 84).  JavaScript `Array.prototype.sort` is stable; a stable
sort by a total comparator has a unique result, here realised by a stable
insertion sort. -/
def sortedRows : List ApiRow → List ApiRow
  | [] => []
  | a :: l => insertByDay a (sortedRows l)

/-- One `byDay.set` step (source lines 87-90): store the row under its
parsed day when that day lies in 1..31. -/
def byDayStep (m : ℤ → Option ApiRow) (r : ApiRow) (d : ℤ) : Option ApiRow :=
  let day := parseDayS r.base_month_day
  if 1 ≤ day ∧ day ≤ 31 then (if d = day then some r else m d) else m d

/-- The `byDay` map (source lines 86-90): later rows of the sorted list
overwrite earlier ones; only days 1..31 are stored. -/
def byDayMap (sorted : List ApiRow) : ℤ → Option ApiRow :=
  sorted.foldl byDayStep (fun _ => none)

/-- One step of the `todayDay` loop (source lines 93-98). -/
def todayStep (t : ℤ) (r : ApiRow) : ℤ :=
  let d := parseDayS r.base_month_day
  if d ≤ 0 then t
  else if jsToLower (jsTrim r.current_month_total_amount_released) ≠ "nan" then max t d
  else t

/-- The parsed days of the rows, keeping only positive ones (used by the
fallbacks in source lines 100 and 117). -/
def daysPresent (sorted : List ApiRow) : List ℤ :=
  (sorted.map (fun r => parseDayS r.base_month_day)).filter (fun d => 0 < d)

/-- `todayDay` before the clamp of source line 125: the loop of lines
92-98, then the fallback `Math.max(...days, 0)` of lines 99-101. -/
def todayDayPre (sorted : List ApiRow) : ℤ :=
  let t := sorted.foldl todayStep 0
  if t = 0 then (daysPresent sorted).foldr max 0 else t

/-- Does row `r` have, for one of `keys`, a value that is non-empty and
not the `"nan"` sentinel after trimming and lower-casing
(source lines 108-114)? -/
def rowQualifies (keys : List (ApiRow → String)) (r : ApiRow) : Bool :=
  keys.any (fun k =>
    let raw := jsToLower (jsTrim (k r))
    raw != "" && raw != "nan")

/-- One step of the `inferLen` loop (source lines 105-115). -/
def inferLenStep (keys : List (ApiRow → String)) (L : ℤ) (r : ApiRow) : ℤ :=
  let d := parseDayS r.base_month_day
  if d ≤ 0 then L
  else if rowQualifies keys r then max L d
  else L

/-- `inferLen` (source lines 103-120): max day carrying a qualifying value
for one of `keys`; if none, `Math.max(...days, 31)` (note that 31 is an
argument of the max); clamped to [28, 31]. -/
def inferLen (sorted : List ApiRow) (keys : List (ApiRow → String)) : ℤ :=
  let L := sorted.foldl (inferLenStep keys) 0
  let L2 := if L = 0 then (daysPresent sorted).foldr max 31 else L
  min (max L2 28) 31

/-- Accessor for the current-month amount field. -/
def curF (r : ApiRow) : String := r.current_month_total_amount_released

/-- Accessor for the record-month amount field. -/
def recF (r : ApiRow) : String := r.record_month_total_amount_released

/-- Accessor for the last-year amount field. -/
def lyF (r : ApiRow) : String := r.last_year_current_month_total_amount_released

/-- Key set used for `currentMonthLen` (source line 122). -/
def currentKeys : List (ApiRow → String) := [curF, lyF]

/-- Key set used for `recordMonthLen` (source line 123). -/
def recordKeys : List (ApiRow → String) := [recF]

/-- `buildDaily` (source lines 127-135): a dense array for days 1..L,
missing days contributing `toNumber('0') = 0`. -/
def buildDaily (byDay : ℤ → Option ApiRow) (key : ApiRow → String) (L : ℤ) : List ℚ :=
  (List.range L.toNat).map (fun (i : ℕ) =>
    let d : ℤ := (i : ℤ) + 1
    let raw := match byDay d with
      | some r => key r
      | none => "0"
    toNumber (JSVal.str raw))

/-- JavaScript `Math.round`: round half toward positive infinity. -/
def jround (q : ℚ) : ℤ := ⌊q + 1 / 2⌋

/-- `currentMonthLen` of the pipeline (source line 122). -/
def currentLenOf (rows : List ApiRow) : ℤ :=
  inferLen (sortedRows rows) currentKeys

/-- `recordMonthLen` of the pipeline (source line 123). -/
def recordLenOf (rows : List ApiRow) : ℤ :=
  inferLen (sortedRows rows) recordKeys

/-- `todayDay` after the clamp of source line 125. -/
def todayDayOf (rows : List ApiRow) : ℤ :=
  min (todayDayPre (sortedRows rows)) (currentLenOf rows)

/-- Cumulative current-month series (source line 137). -/
def currentCumOf (rows : List ApiRow) : List ℚ :=
  cumulative (buildDaily (byDayMap (sortedRows rows)) curF (currentLenOf rows))

/-- Cumulative last-year series (source line 138). -/
def lastYearCumOf (rows : List ApiRow) : List ℚ :=
  cumulative (buildDaily (byDayMap (sortedRows rows)) lyF (currentLenOf rows))

/-- Cumulative record-month series (source line 139). -/
def recordCumOf (rows : List ApiRow) : List ℚ :=
  cumulative (buildDaily (byDayMap (sortedRows rows)) recF (recordLenOf rows))

/-- `currentProgressX` (source lines 140-141):
`Math.round((len > 0 ? today / len : 0) * 100)`. -/
def cpxOf (rows : List ApiRow) : ℤ :=
  jround ((if 0 < currentLenOf rows then (todayDayOf rows : ℚ) / (currentLenOf rows : ℚ) else 0) * 100)

/-- One chart point (source lines 143-156): values at progress `x / 100`,
with `current` nulled out strictly past `currentProgressX`. -/
def chartPointOf (rows : List ApiRow) (x : ℕ) : ChartRow :=
  let p : ℚ := (x : ℚ) / 100
  { x := x
    current :=
      if (x : ℤ) > cpxOf rows then none
      else some (cumAtProgress (currentCumOf rows) (currentLenOf rows) p)
    lastYear := cumAtProgress (lastYearCumOf rows) (currentLenOf rows) p
    record := cumAtProgress (recordCumOf rows) (recordLenOf rows) p }

/-- The degenerate result for empty input (source lines 78-82). -/
def emptyResult : List ChartRow × TransformMeta :=
  ([{ x := 0, current := some 0, lastYear := 0, record := 0 }],
    { currentMonthLen := 31, recordMonthLen := 31, todayDay := 0, currentProgressX := 0 })

/-- `transformApiToNormalizedChart` (source lines 77-162). -/
def transformApiToNormalizedChart (rows : List ApiRow) : List ChartRow × TransformMeta :=
  if rows = [] then emptyResult
  else
    ((List.range 101).map (chartPointOf rows),
      { currentMonthLen := currentLenOf rows
        recordMonthLen := recordLenOf rows
        todayDay := todayDayOf rows
        currentProgressX := cpxOf rows })

/-- `formatBubble` (source lines 427-435): compact millions formatting.
Writing `k = ⌈millions * 10⌉`, the rounded value is `k / 10`;
`rounded % 1 === 0` holds exactly when `10 ∣ k`, and for the non-negative
values this dashboard formats, `toFixed(0)` prints `k / 10` and
`toFixed(1)` prints `k / 10` and `k % 10` around a decimal point. -/
def formatBubble (value : ℚ) : String :=
  let millions := value / 1000000
  if millions < 10 then
    let k : ℤ := ⌈millions * 10⌉
    if k % 10 = 0 then toString (k / 10) ++ "M"
    else toString (k / 10) ++ "." ++ toString (k % 10) ++ "M"
  else toString (⌈millions⌉ : ℤ) ++ "M"

/-- Default chart row used with `List.getD`. -/
def defaultRow : ChartRow := { x := 0, current := none, lastYear := 0, record := 0 }

/-! ### Permutation and membership facts about the pipeline's containers -/

theorem insertByDay_perm (r : ApiRow) (l : List ApiRow) : (insertByDay r l).Perm (r :: l) := by
  induction l with
  | nil => exact List.Perm.refl _
  | cons a l ih =>
    unfold insertByDay
    split
    · exact (ih.cons a).trans (List.Perm.swap r a l)
    · exact List.Perm.refl _

theorem sortedRows_perm (l : List ApiRow) : (sortedRows l).Perm l := by
  induction l with
  | nil => exact List.Perm.refl _
  | cons a l ih => exact (insertByDay_perm a (sortedRows l)).trans (ih.cons a)

theorem mem_sortedRows {r : ApiRow} {l : List ApiRow} : r ∈ sortedRows l ↔ r ∈ l :=
  (sortedRows_perm l).mem_iff

theorem byDayFold_mem (l : List ApiRow) (m : ℤ → Option ApiRow) (d : ℤ) (r : ApiRow)
    (h : l.foldl byDayStep m d = some r) : r ∈ l ∨ m d = some r := by
  induction l generalizing m with
  | nil => exact Or.inr h
  | cons a l ih =>
    rcases ih (byDayStep m a) h with h' | h'
    · exact Or.inl (List.mem_cons_of_mem a h')
    · simp only [byDayStep] at h'
      split at h'
      · split at h'
        · injection h' with h''
          subst h''
          exact Or.inl (List.mem_cons_self a l)
        · exact Or.inr h'
      · exact Or.inr h'

theorem byDayMap_mem {l : List ApiRow} {d : ℤ} {r : ApiRow}
    (h : byDayMap l d = some r) : r ∈ l := by
  rcases byDayFold_mem l (fun _ => none) d r h with h' | h'
  · exact h'
  · cases h'

/-! ### Bounds on the max-folds used by `todayDay` and `inferLen` -/

theorem foldr_max_ge (l : List ℤ) (b : ℤ) : b ≤ l.foldr max b := by
  induction l with
  | nil => exact le_refl b
  | cons a l ih => exact le_trans ih (le_max_right a _)

theorem todayFold_ge_acc (l : List ApiRow) (acc : ℤ) : acc ≤ l.foldl todayStep acc := by
  induction l generalizing acc with
  | nil => exact le_refl acc
  | cons a l ih =>
    have hstep : acc ≤ todayStep acc a := by
      unfold todayStep
      dsimp only
      split
      · exact le_rfl
      · split
        · exact le_max_left _ _
        · exact le_rfl
    exact le_trans hstep (ih _)

theorem todayFold_ge_day (l : List ApiRow) (acc : ℤ) (r : ApiRow) (hr : r ∈ l)
    (hd : 0 < parseDayS r.base_month_day)
    (hraw : jsToLower (jsTrim r.current_month_total_amount_released) ≠ "nan") :
    parseDayS r.base_month_day ≤ l.foldl todayStep acc := by
  induction l generalizing acc with
  | nil => cases hr
  | cons a l ih =>
    rcases List.mem_cons.mp hr with rfl | hr'
    · refine le_trans ?_ (todayFold_ge_acc l (todayStep acc r))
      unfold todayStep
      dsimp only
      rw [if_neg (by omega), if_pos hraw]
      exact le_max_right _ _
    · exact ih (todayStep acc a) hr'

theorem todayDayPre_nonneg (l : List ApiRow) : 0 ≤ todayDayPre l := by
  unfold todayDayPre
  simp only
  split
  · exact foldr_max_ge _ 0
  · exact todayFold_ge_acc l 0

theorem todayDayPre_ge_day (l : List ApiRow) (r : ApiRow) (hr : r ∈ l)
    (hd : 0 < parseDayS r.base_month_day)
    (hraw : jsToLower (jsTrim r.current_month_total_amount_released) ≠ "nan") :
    parseDayS r.base_month_day ≤ todayDayPre l := by
  unfold todayDayPre
  simp only
  have hfold := todayFold_ge_day l 0 r hr hd hraw
  split
  · omega
  · exact hfold

theorem inferFold_const (keys : List (ApiRow → String)) (l : List ApiRow) (acc : ℤ)
    (h : ∀ r ∈ l, parseDayS r.base_month_day ≤ 0 ∨ rowQualifies keys r = false) :
    l.foldl (inferLenStep keys) acc = acc := by
  induction l generalizing acc with
  | nil => rfl
  | cons a l ih =>
    have hstep : inferLenStep keys acc a = acc := by
      unfold inferLenStep
      dsimp only
      rcases h a (List.mem_cons_self a l) with h' | h'
      · rw [if_pos h']
      · by_cases hd : parseDayS a.base_month_day ≤ 0
        · rw [if_pos hd]
        · rw [if_neg hd, if_neg (by simp [h'])]
    rw [List.foldl_cons, hstep]
    exact ih _ (fun r hr => h r (List.mem_cons_of_mem a hr))

theorem inferLen_ge (sorted : List ApiRow) (keys : List (ApiRow → String)) :
    28 ≤ inferLen sorted keys := by
  unfold inferLen
  simp only
  exact le_min (le_trans (le_max_right _ _) le_rfl) (by norm_num)

theorem inferLen_le (sorted : List ApiRow) (keys : List (ApiRow → String)) :
    inferLen sorted keys ≤ 31 := by
  unfold inferLen
  simp only
  exact min_le_right _ _

theorem inferLen_pos (sorted : List ApiRow) (keys : List (ApiRow → String)) :
    0 < inferLen sorted keys :=
  lt_of_lt_of_le (by norm_num) (inferLen_ge sorted keys)

theorem inferLen_eq_31 (sorted : List ApiRow) (keys : List (ApiRow → String))
    (h : ∀ r ∈ sorted, parseDayS r.base_month_day ≤ 0 ∨ rowQualifies keys r = false) :
    inferLen sorted keys = 31 := by
  unfold inferLen
  simp only
  rw [inferFold_const keys sorted 0 h, if_pos rfl]
  have h31 : (31 : ℤ) ≤ (daysPresent sorted).foldr max 31 := foldr_max_ge _ _
  rw [max_eq_left (by omega), min_eq_right (by omega)]

/-! ### `getQ` facts -/

theorem getQ_nonneg {l : List ℚ} (hl : ∀ x ∈ l, 0 ≤ x) {fb : ℚ} (hfb : 0 ≤ fb) (i : ℤ) :
    0 ≤ getQ l i fb := by
  unfold getQ
  split
  · exact hl _ (List.get_mem l _ _)
  · exact hfb

theorem getQ_eq_get (l : List ℚ) {i : ℤ} (h0 : 0 ≤ i) (hi : i.toNat < l.length) (fb : ℚ) :
    getQ l i fb = l.get ⟨i.toNat, hi⟩ := by
  unfold getQ
  rw [dif_pos ⟨h0, hi⟩]

theorem sorted_get_mono {l : List ℚ} (hs : l.Sorted (· ≤ ·)) (i j : ℕ) (hij : i ≤ j)
    (hj : j < l.length) : l.get ⟨i, lt_of_le_of_lt hij hj⟩ ≤ l.get ⟨j, hj⟩ := by
  rcases Nat.lt_or_ge i j with h | h
  · exact hs.rel_get_of_lt h
  · have hij' : i = j := le_antisymm hij h
    subst hij'
    exact le_rfl

theorem getQ_mono {l : List ℚ} (hs : l.Sorted (· ≤ ·)) {i j : ℤ} (h0 : 0 ≤ i) (hij : i ≤ j)
    (hj : j.toNat < l.length) : getQ l i 0 ≤ getQ l j 0 := by
  have h0j : 0 ≤ j := le_trans h0 hij
  have hij' : i.toNat ≤ j.toNat := Int.toNat_le_toNat hij
  rw [getQ_eq_get l h0 (lt_of_le_of_lt hij' hj) 0, getQ_eq_get l h0j hj 0]
  exact sorted_get_mono hs _ _ hij' hj

theorem getQ_cons (a : ℚ) (t : List ℚ) (i : ℤ) (hi : 1 ≤ i) (fb : ℚ) :
    getQ (a :: t) i fb = getQ t (i - 1) fb := by
  unfold getQ
  have hnat : i.toNat = (i - 1).toNat + 1 := by omega
  by_cases h : (i - 1).toNat < t.length
  · rw [dif_pos ⟨by omega, by simp only [List.length_cons]; omega⟩, dif_pos ⟨by omega, h⟩]
    simp only [List.get_eq_getElem]
    simp only [hnat, List.getElem_cons_succ]
  · rw [dif_neg (by simp only [List.length_cons]; omega), dif_neg (by omega)]

/-! ### `cumulative` facts -/

theorem cumulativeAux_length (acc : ℚ) (l : List ℚ) : (cumulativeAux acc l).length = l.length := by
  induction l generalizing acc with
  | nil => rfl
  | cons v vs ih => simp [cumulativeAux, ih]

theorem cumulative_length (l : List ℚ) : (cumulative l).length = l.length :=
  cumulativeAux_length 0 l

theorem cumulativeAux_mem_ge (acc : ℚ) (l : List ℚ) (h : ∀ x ∈ l, 0 ≤ x) :
    ∀ y ∈ cumulativeAux acc l, acc ≤ y := by
  induction l generalizing acc with
  | nil => intro y hy; cases hy
  | cons v vs ih =>
    intro y hy
    have hv := h v (List.mem_cons_self v vs)
    rcases List.mem_cons.mp hy with rfl | hy'
    · linarith
    · have := ih (acc + v) (fun x hx => h x (List.mem_cons_of_mem v hx)) y hy'
      linarith

theorem cumulativeAux_sorted (acc : ℚ) (l : List ℚ) (h : ∀ x ∈ l, 0 ≤ x) :
    (cumulativeAux acc l).Sorted (· ≤ ·) := by
  induction l generalizing acc with
  | nil => exact List.sorted_nil
  | cons v vs ih =>
    rw [cumulativeAux]
    refine List.sorted_cons.mpr ⟨?_, ih (acc + v) (fun x hx => h x (List.mem_cons_of_mem v hx))⟩
    exact cumulativeAux_mem_ge (acc + v) vs (fun x hx => h x (List.mem_cons_of_mem v hx))

theorem cumulative_nonneg (l : List ℚ) (h : ∀ x ∈ l, 0 ≤ x) :
    ∀ y ∈ cumulative l, 0 ≤ y :=
  cumulativeAux_mem_ge 0 l h

theorem cumulative_sorted (l : List ℚ) (h : ∀ x ∈ l, 0 ≤ x) :
    (cumulative l).Sorted (· ≤ ·) :=
  cumulativeAux_sorted 0 l h

theorem cumulativeAux_getQ_last (acc : ℚ) (l : List ℚ) (h : l ≠ []) :
    getQ (cumulativeAux acc l) ((l.length : ℤ) - 1) 0 = acc + l.sum := by
  induction l generalizing acc with
  | nil => cases h rfl
  | cons v vs ih =>
    cases vs with
    | nil => norm_num [cumulativeAux, getQ]
    | cons w ws =>
      rw [show cumulativeAux acc (v :: w :: ws) = (acc + v) :: cumulativeAux (acc + v) (w :: ws)
          from rfl]
      rw [getQ_cons _ _ _ (by simp only [List.length_cons]; push_cast; omega) _]
      rw [show ((v :: w :: ws).length : ℤ) - 1 - 1 = ((w :: ws).length : ℤ) - 1 by
        simp only [List.length_cons]; push_cast; ring_nf]
      rw [ih (acc + v) (by simp)]
      simp only [List.sum_cons]
      ring

theorem cumulative_last (l : List ℚ) (h : l ≠ []) :
    getQ (cumulative l) ((l.length : ℤ) - 1) 0 = l.sum := by
  have hres := cumulativeAux_getQ_last 0 l h
  rw [zero_add] at hres
  exact hres

/-! ### `cumAtProgress` facts -/

theorem cumAtProgress_zero (cum : List ℚ) (L : ℤ) : cumAtProgress cum L 0 = 0 := by
  unfold cumAtProgress
  split
  · rfl
  · rw [if_pos le_rfl]

theorem cumAtProgress_one (cum : List ℚ) (L : ℤ) (hL : 0 < L) :
    cumAtProgress cum L 1 = getQ cum (L - 1) 0 := by
  unfold cumAtProgress
  rw [if_neg (by omega), if_neg (by norm_num), if_pos le_rfl]

/-- The lower endpoint of the interpolation segment starting at day `a`:
0 for the first segment, the cumulative value of day `a` otherwise. -/
def segLo (cum : List ℚ) (a : ℤ) : ℚ :=
  if a = 0 then 0 else getQ cum (a - 1) 0

theorem segLo_nonneg {cum : List ℚ} (hl : ∀ x ∈ cum, 0 ≤ x) (a : ℤ) : 0 ≤ segLo cum a := by
  unfold segLo
  split
  · exact le_rfl
  · exact getQ_nonneg hl le_rfl _

theorem floor_lt_of_interior {L : ℤ} {p : ℚ} (hL : 0 < L) (h1 : p < 1) :
    ⌊p * (L : ℚ)⌋ < L := by
  have hL' : (0 : ℚ) < (L : ℚ) := by exact_mod_cast hL
  apply Int.floor_lt.mpr
  calc p * (L : ℚ) < 1 * (L : ℚ) := mul_lt_mul_of_pos_right h1 hL'
  _ = ((L : ℤ) : ℚ) := one_mul _

theorem floor_nonneg_of_interior {L : ℤ} {p : ℚ} (hL : 0 < L) (h0 : 0 < p) :
    0 ≤ ⌊p * (L : ℚ)⌋ := by
  have hL' : (0 : ℚ) < (L : ℚ) := by exact_mod_cast hL
  exact Int.floor_nonneg.mpr (le_of_lt (mul_pos h0 hL'))

theorem cumAtProgress_eval (cum : List ℚ) (L : ℤ) (p : ℚ) (hL : 0 < L) (h0 : 0 < p)
    (h1 : p < 1) :
    cumAtProgress cum L p =
      segLo cum ⌊p * (L : ℚ)⌋ +
        (getQ cum ⌊p * (L : ℚ)⌋ (segLo cum ⌊p * (L : ℚ)⌋) - segLo cum ⌊p * (L : ℚ)⌋) *
          (p * (L : ℚ) - (⌊p * (L : ℚ)⌋ : ℚ)) := by
  have hL' : (0 : ℚ) < (L : ℚ) := by exact_mod_cast hL
  have ha0 : 0 ≤ ⌊p * (L : ℚ)⌋ := floor_nonneg_of_interior hL h0
  have haL : ⌊p * (L : ℚ)⌋ < L := floor_lt_of_interior hL h1
  unfold cumAtProgress
  rw [if_neg (by omega), if_neg (by linarith), if_neg (by linarith)]
  simp only
  rw [min_eq_left (by omega)]
  rw [if_neg (by omega)]
  by_cases ha : ⌊p * (L : ℚ)⌋ = 0
  · rw [ha]
    norm_num [segLo]
  · rw [max_eq_left (by omega : (-1 : ℤ) ≤ ⌊p * (L : ℚ)⌋ - 1), if_pos (by omega : (0 : ℤ) ≤ ⌊p * (L : ℚ)⌋ - 1)]
    rw [show ⌊p * (L : ℚ)⌋ + 1 - 1 = ⌊p * (L : ℚ)⌋ from by ring]
    rw [show ((⌊p * (L : ℚ)⌋ + 1 : ℤ) : ℚ) - ((⌊p * (L : ℚ)⌋ : ℤ) : ℚ) = 1 from by push_cast; ring]
    rw [div_one, segLo, if_neg ha]

theorem cumAtProgress_nonneg (cum : List ℚ) (L : ℤ) (p : ℚ) (hl : ∀ x ∈ cum, 0 ≤ x) :
    0 ≤ cumAtProgress cum L p := by
  by_cases hL : L ≤ 0
  · unfold cumAtProgress; rw [if_pos hL]
  by_cases hp : p ≤ 0
  · unfold cumAtProgress; rw [if_neg hL, if_pos hp]
  by_cases hp1 : 1 ≤ p
  · unfold cumAtProgress
    rw [if_neg hL, if_neg hp, if_pos hp1]
    exact getQ_nonneg hl le_rfl _
  · rw [cumAtProgress_eval cum L p (by omega) (by linarith) (by linarith)]
    have hlo : 0 ≤ segLo cum ⌊p * (L : ℚ)⌋ := segLo_nonneg hl _
    have hhi : 0 ≤ getQ cum ⌊p * (L : ℚ)⌋ (segLo cum ⌊p * (L : ℚ)⌋) := getQ_nonneg hl hlo _
    have hfl := Int.floor_le (p * (L : ℚ))
    have hfl2 := Int.lt_floor_add_one (p * (L : ℚ))
    have ht0 : 0 ≤ p * (L : ℚ) - (⌊p * (L : ℚ)⌋ : ℚ) := by linarith
    have ht1 : p * (L : ℚ) - (⌊p * (L : ℚ)⌋ : ℚ) ≤ 1 := by push_cast at hfl2; linarith
    nlinarith [mul_nonneg hhi ht0,
      mul_nonneg hlo (by linarith : (0 : ℚ) ≤ 1 - (p * (L : ℚ) - (⌊p * (L : ℚ)⌋ : ℚ)))]

theorem getQ_fb_irrel {l : List ℚ} {i : ℤ} (h0 : 0 ≤ i) (hi : i.toNat < l.length)
    (fb fb2 : ℚ) : getQ l i fb = getQ l i fb2 := by
  rw [getQ_eq_get l h0 hi fb, getQ_eq_get l h0 hi fb2]

theorem segLo_le_getQ {cum : List ℚ} (hs : cum.Sorted (· ≤ ·)) (hl : ∀ x ∈ cum, 0 ≤ x)
    {a : ℤ} (ha0 : 0 ≤ a) (haL : a.toNat < cum.length) : segLo cum a ≤ getQ cum a 0 := by
  unfold segLo
  split
  · exact getQ_nonneg hl le_rfl a
  · exact getQ_mono hs (by omega) (by omega) haL

theorem cumAtProgress_bounds (cum : List ℚ) (L : ℤ) (p : ℚ) (hL : 0 < L)
    (hlen : cum.length = L.toNat) (hs : cum.Sorted (· ≤ ·)) (hl : ∀ x ∈ cum, 0 ≤ x)
    (h0 : 0 < p) (h1 : p < 1) :
    segLo cum ⌊p * (L : ℚ)⌋ ≤ cumAtProgress cum L p ∧
      cumAtProgress cum L p ≤ getQ cum ⌊p * (L : ℚ)⌋ 0 := by
  have ha0 := floor_nonneg_of_interior hL h0
  have haL := floor_lt_of_interior hL h1
  have hin : (⌊p * (L : ℚ)⌋).toNat < cum.length := by omega
  rw [cumAtProgress_eval cum L p hL h0 h1,
    getQ_fb_irrel ha0 hin (segLo cum ⌊p * (L : ℚ)⌋) 0]
  have hseg : segLo cum ⌊p * (L : ℚ)⌋ ≤ getQ cum ⌊p * (L : ℚ)⌋ 0 := segLo_le_getQ hs hl ha0 hin
  have hfl := Int.floor_le (p * (L : ℚ))
  have hfl2 := Int.lt_floor_add_one (p * (L : ℚ))
  have ht0 : 0 ≤ p * (L : ℚ) - (⌊p * (L : ℚ)⌋ : ℚ) := by linarith
  have ht1 : p * (L : ℚ) - (⌊p * (L : ℚ)⌋ : ℚ) ≤ 1 := by push_cast at hfl2; linarith
  constructor
  · linarith [mul_nonneg (sub_nonneg.mpr hseg) ht0]
  · nlinarith [mul_nonneg (sub_nonneg.mpr hseg)
      (by linarith : (0 : ℚ) ≤ 1 - (p * (L : ℚ) - (⌊p * (L : ℚ)⌋ : ℚ)))]

theorem cumAtProgress_mono (cum : List ℚ) (L : ℤ) (hL : 0 < L) (hlen : cum.length = L.toNat)
    (hs : cum.Sorted (· ≤ ·)) (hl : ∀ x ∈ cum, 0 ≤ x) {p q : ℚ} (hpq : p ≤ q) :
    cumAtProgress cum L p ≤ cumAtProgress cum L q := by
  by_cases hp : p ≤ 0
  · have hzero : cumAtProgress cum L p = 0 := by
      unfold cumAtProgress
      rw [if_neg (by omega), if_pos hp]
    rw [hzero]
    exact cumAtProgress_nonneg cum L q hl
  push_neg at hp
  by_cases hq1 : 1 ≤ q
  · have hqeq : cumAtProgress cum L q = getQ cum (L - 1) 0 := by
      unfold cumAtProgress
      rw [if_neg (by omega), if_neg (by linarith), if_pos hq1]
    rw [hqeq]
    by_cases hp1 : 1 ≤ p
    · have hpeq : cumAtProgress cum L p = getQ cum (L - 1) 0 := by
        unfold cumAtProgress
        rw [if_neg (by omega), if_neg (by linarith), if_pos hp1]
      rw [hpeq]
    · push_neg at hp1
      refine le_trans (cumAtProgress_bounds cum L p hL hlen hs hl hp hp1).2 ?_
      have haL := floor_lt_of_interior hL hp1
      exact getQ_mono hs (floor_nonneg_of_interior hL hp) (by omega) (by omega)
  · push_neg at hq1
    have hq0 : 0 < q := lt_of_lt_of_le hp hpq
    have hp1 : p < 1 := lt_of_le_of_lt hpq hq1
    have hLnn : (0 : ℚ) ≤ (L : ℚ) := by exact_mod_cast le_of_lt hL
    have hab : ⌊p * (L : ℚ)⌋ ≤ ⌊q * (L : ℚ)⌋ :=
      Int.floor_le_floor (mul_le_mul_of_nonneg_right hpq hLnn)
    rcases eq_or_lt_of_le hab with heq | hlt
    · rw [cumAtProgress_eval cum L p hL hp hp1, cumAtProgress_eval cum L q hL hq0 hq1, ← heq]
      have ha0 := floor_nonneg_of_interior hL hp
      have haL := floor_lt_of_interior hL hp1
      have hin : (⌊p * (L : ℚ)⌋).toNat < cum.length := by omega
      rw [getQ_fb_irrel ha0 hin (segLo cum ⌊p * (L : ℚ)⌋) 0]
      have hseg := segLo_le_getQ hs hl ha0 hin
      have hLq : p * (L : ℚ) ≤ q * (L : ℚ) := mul_le_mul_of_nonneg_right hpq hLnn
      nlinarith [mul_nonneg (sub_nonneg.mpr hseg) (sub_nonneg.mpr hLq)]
    · have ha0 := floor_nonneg_of_interior hL hp
      have hbL := floor_lt_of_interior hL hq1
      have hbin : (⌊q * (L : ℚ)⌋).toNat < cum.length := by omega
      refine le_trans (cumAtProgress_bounds cum L p hL hlen hs hl hp hp1).2
        (le_trans ?_ (cumAtProgress_bounds cum L q hL hlen hs hl hq0 hq1).1)
      unfold segLo
      rw [if_neg (by omega)]
      exact getQ_mono hs ha0 (by omega) (by omega)

/-! ### Transform-level plumbing -/

theorem transform_ne (rows : List ApiRow) (h : rows ≠ []) :
    transformApiToNormalizedChart rows =
      ((List.range 101).map (chartPointOf rows),
        { currentMonthLen := currentLenOf rows
          recordMonthLen := recordLenOf rows
          todayDay := todayDayOf rows
          currentProgressX := cpxOf rows }) := by
  unfold transformApiToNormalizedChart
  rw [if_neg h]

theorem chartData_getD (rows : List ApiRow) (x : ℕ) (hx : x < 101) :
    ((List.range 101).map (chartPointOf rows)).getD x defaultRow = chartPointOf rows x := by
  rw [List.getD_eq_getElem?_getD, List.getElem?_map, List.getElem?_range hx]
  rfl

theorem buildDaily_length (m : ℤ → Option ApiRow) (key : ApiRow → String) (L : ℤ) :
    (buildDaily m key L).length = L.toNat := by
  unfold buildDaily
  rw [List.length_map, List.length_range]

theorem toNumber_str_zero : toNumber (JSVal.str "0") = 0 := by
  with_unfolding_all decide

theorem buildDaily_nonneg (rows : List ApiRow) (key : ApiRow → String) (L : ℤ)
    (h : ∀ r ∈ rows, 0 ≤ toNumber (JSVal.str (key r))) :
    ∀ x ∈ buildDaily (byDayMap (sortedRows rows)) key L, 0 ≤ x := by
  intro x hx
  unfold buildDaily at hx
  rcases List.mem_map.mp hx with ⟨i, _, rfl⟩
  cases hb : byDayMap (sortedRows rows) ((i : ℤ) + 1) with
  | none => simp only [hb, toNumber_str_zero, le_refl]
  | some r =>
    simp only [hb]
    exact h r (mem_sortedRows.mp (byDayMap_mem hb))

theorem currentCumOf_length (rows : List ApiRow) :
    (currentCumOf rows).length = (currentLenOf rows).toNat := by
  unfold currentCumOf
  rw [cumulative_length, buildDaily_length]

theorem lastYearCumOf_length (rows : List ApiRow) :
    (lastYearCumOf rows).length = (currentLenOf rows).toNat := by
  unfold lastYearCumOf
  rw [cumulative_length, buildDaily_length]

theorem recordCumOf_length (rows : List ApiRow) :
    (recordCumOf rows).length = (recordLenOf rows).toNat := by
  unfold recordCumOf
  rw [cumulative_length, buildDaily_length]

theorem todayDayOf_nonneg (rows : List ApiRow) : 0 ≤ todayDayOf rows :=
  le_min (todayDayPre_nonneg _) (le_of_lt (inferLen_pos _ _))

theorem cpxOf_nonneg (rows : List ApiRow) : 0 ≤ cpxOf rows := by
  unfold cpxOf jround
  apply Int.floor_nonneg.mpr
  have h1 : 0 ≤ (if 0 < currentLenOf rows then (todayDayOf rows : ℚ) / (currentLenOf rows : ℚ)
      else 0) := by
    split
    · apply div_nonneg
      · exact_mod_cast todayDayOf_nonneg rows
      · exact_mod_cast le_of_lt (by assumption : 0 < currentLenOf rows)
    · exact le_rfl
  nlinarith [h1]

/-! ### Concrete inputs used by counterexamples, scenarios and witnesses -/

/-- A single row, day 1, whose three amounts all parse to the negative
number -5. -/
def rowsNeg : List ApiRow := [⟨"1", "-5", "-5", "-5"⟩]

/-- A single row, day 15, whose three amount fields are all the `"nan"`
sentinel. -/
def rows15 : List ApiRow := [⟨"15", "nan", "nan", "nan"⟩]

/-- A row on day 30 whose current-month amount is the empty string and
whose other fields are all `"nan"`. -/
def row30 : ApiRow := ⟨"30", "", "nan", "nan"⟩

/-- Day 5 has real current data, day 30 only an empty current amount, so
length inference clamps to 28 while the today scan reaches 30. -/
def rowsClamp : List ApiRow := [⟨"5", "1", "nan", "nan"⟩, row30]

/-- Days 1-28 carry current amount "100" and last-year amount "50";
day 29 has current `"nan"` but a real last-year amount. -/
def rows29 : List ApiRow :=
  ((List.range 28).map (fun (i : ℕ) => ⟨toString (i + 1), "100", "nan", "50"⟩)) ++
    [⟨"29", "nan", "nan", "50"⟩]

/-- A single innocuous row: day 1 with all amounts "0". -/
def rows1 : List ApiRow := [⟨"1", "0", "0", "0"⟩]

/-! ### Claim C5: empty-input fallback -/

/-- C5: on an empty row list, `transformApiToNormalizedChart` returns exactly
one point `{progressPercent 0, currentValue 0, lastYearValue 0, recordValue 0}`
and the default metadata `{currentMonthLength 31, recordMonthLength 31,
todayDayIndex 0, todayProgressPercent 0}` — a defined fallback, not an
error. -/
theorem transform_empty_fallback :
    transformApiToNormalizedChart [] =
      ([{ x := 0, current := some 0, lastYear := 0, record := 0 }],
        { currentMonthLen := 31, recordMonthLen := 31, todayDay := 0,
          currentProgressX := 0 }) := rfl

/-! ### Claim C2: month-length inference when no row qualifies -/

/-- C2 counterexample: a single row with day 15 and all amount fields the
`"nan"` sentinel.  The claim predicts an inferred current-month length of 28
(max present day 15 clamped up to 28); the code's fallback
`Math.max(...days, 31)` already contains 31, so the result is 31. -/
theorem inferLen_fallback_not_max_day :
    (transformApiToNormalizedChart rows15).2.currentMonthLen = 31 ∧
      ¬ (transformApiToNormalizedChart rows15).2.currentMonthLen = 28 := by
  exact ⟨by decide, by decide⟩

/-- C2 (amended): when no row has a qualifying (non-empty, non-`"nan"`) value
for the given amount fields, the fallback takes the maximum of the parsed day
indices together with 31 and then clamps to [28, 31]; since 31 participates in
the max, the inferred length is 31 regardless of the days present. -/
theorem inferLen_all_sentinel (rows : List ApiRow) (keys : List (ApiRow → String))
    (h : ∀ r ∈ rows, parseDayS r.base_month_day ≤ 0 ∨ rowQualifies keys r = false) :
    inferLen (sortedRows rows) keys = 31 :=
  inferLen_eq_31 _ _ (fun r hr => h r (mem_sortedRows.mp hr))

theorem inferLen_all_sentinel_witness : inferLen (sortedRows rows15) currentKeys = 31 :=
  inferLen_all_sentinel rows15 currentKeys (by decide)

/-! ### Claim C3: `parseDay` contract -/

/-- C3 counterexample: the number branch of `parseDay` is
`Math.floor(v)` with no finiteness check, so the number input NaN is passed
through instead of yielding 0 as the claim states. -/
theorem parseDay_nan_cex : parseDay (JSVal.num JSNum.nan) ≠ JSNum.fin 0 := by decide

/-- C3 (amended): `parseDay` floors finite number inputs and passes the
non-finite numbers NaN and ±Infinity through unchanged (the number branch has
no finiteness check); string inputs are base-10 integer-parsed with an
unparseable (NaN) result replaced by 0; any other input type yields 0; and it
is total, hence never throws. -/
theorem parseDay_contract :
    (∀ q : ℚ, parseDay (JSVal.num (JSNum.fin q)) = JSNum.fin (⌊q⌋ : ℤ)) ∧
    parseDay (JSVal.num JSNum.nan) = JSNum.nan ∧
    parseDay (JSVal.num JSNum.inf) = JSNum.inf ∧
    parseDay (JSVal.num JSNum.negInf) = JSNum.negInf ∧
    (∀ s : String, parseDay (JSVal.str s) = JSNum.fin ((parseDayS s : ℤ) : ℚ)) ∧
    parseDay JSVal.nullv = JSNum.fin 0 ∧
    parseDay JSVal.undef = JSNum.fin 0 ∧
    (∀ b : Bool, parseDay (JSVal.boolv b) = JSNum.fin 0) ∧
    parseDay JSVal.obj = JSNum.fin 0 :=
  ⟨fun _ => rfl, rfl, rfl, rfl, fun s => parseDay_str s, rfl, rfl, fun _ => rfl, rfl⟩

/-! ### Claim C7: `toNumber` contract -/

/-- C7: `toNumber` returns finite numbers unchanged and 0 for non-finite
numbers; strings are trimmed and lower-cased, the sentinels `""`, `"nan"`,
`"null"`, `"undefined"` (any case, surrounding whitespace) yield exactly 0,
and any other string is numeric-parsed with 0 on failure; any other input
type yields 0; and it is total, hence never throws. -/
theorem toNumber_contract :
    (∀ q : ℚ, toNumber (JSVal.num (JSNum.fin q)) = q) ∧
    toNumber (JSVal.num JSNum.nan) = 0 ∧
    toNumber (JSVal.num JSNum.inf) = 0 ∧
    toNumber (JSVal.num JSNum.negInf) = 0 ∧
    (∀ s : String,
      (jsToLower (jsTrim s) = "" ∨ jsToLower (jsTrim s) = "nan" ∨
        jsToLower (jsTrim s) = "null" ∨ jsToLower (jsTrim s) = "undefined") →
      toNumber (JSVal.str s) = 0) ∧
    (∀ s : String,
      ¬(jsToLower (jsTrim s) = "" ∨ jsToLower (jsTrim s) = "nan" ∨
        jsToLower (jsTrim s) = "null" ∨ jsToLower (jsTrim s) = "undefined") →
      toNumber (JSVal.str s) = (jsNumber (jsToLower (jsTrim s))).getD 0) ∧
    toNumber JSVal.nullv = 0 ∧
    toNumber JSVal.undef = 0 ∧
    (∀ b : Bool, toNumber (JSVal.boolv b) = 0) ∧
    toNumber JSVal.obj = 0 := by
  refine ⟨fun q => rfl, rfl, rfl, rfl, ?_, ?_, rfl, rfl, fun b => rfl, rfl⟩
  · intro s hs
    simp only [toNumber]
    rw [if_pos hs]
  · intro s hs
    simp only [toNumber]
    rw [if_neg hs]
    cases hj : jsNumber (jsToLower (jsTrim s)) <;> simp [hj]

theorem toNumber_contract_witness :
    toNumber (JSVal.str "  NaN ") = 0 ∧
      toNumber (JSVal.str " 2.5 ") = (jsNumber (jsToLower (jsTrim " 2.5 "))).getD 0 :=
  ⟨toNumber_contract.2.2.2.2.1 "  NaN " (by decide),
    toNumber_contract.2.2.2.2.2.1 " 2.5 " (by decide)⟩

/-! ### Claim C6: today-inference vs length-inference -/

/-- C6 counterexample: in `rowsClamp` the largest day whose current-month
amount is not the `"nan"` sentinel is 30 (an empty string on day 30), yet
`todayDay` is 28, because the final clamp `todayDay = min(todayDay,
currentMonthLen)` is missing from the claim's characterisation. -/
theorem todayDay_clamped_cex :
    (∃ r ∈ rowsClamp, parseDayS r.base_month_day = 30 ∧
      jsToLower (jsTrim r.current_month_total_amount_released) ≠ "nan") ∧
    (transformApiToNormalizedChart rowsClamp).2.todayDay ≠ 30 := by
  exact ⟨⟨row30, by decide, by decide, by decide⟩, by decide⟩

set_option maxRecDepth 100000 in
/-- C6 (amended): the today scan takes the maximum day with a non-`"nan"`
current amount (with the max-present-day fallback), but the result is then
clamped to `currentMonthLen`; in the scenario of the claim (days 1-28 current
"100", day 29 current `"nan"` with a non-sentinel last-year value) the clamp
does not bite and the two inferences are indeed independent: `todayDay = 28`
while `currentMonthLen = 29`. -/
theorem today_vs_length_scenario :
    (∀ rows : List ApiRow, rows ≠ [] →
      (transformApiToNormalizedChart rows).2.todayDay =
        min (todayDayPre (sortedRows rows))
          ((transformApiToNormalizedChart rows).2.currentMonthLen)) ∧
    (transformApiToNormalizedChart rows29).2.todayDay = 28 ∧
    (transformApiToNormalizedChart rows29).2.currentMonthLen = 29 := by
  refine ⟨?_, by decide, by decide⟩
  intro rows hne
  rw [transform_ne rows hne]
  rfl

set_option maxRecDepth 100000 in
theorem today_vs_length_scenario_witness :
    (transformApiToNormalizedChart rows29).2.todayDay =
      min (todayDayPre (sortedRows rows29))
        ((transformApiToNormalizedChart rows29).2.currentMonthLen) :=
  today_vs_length_scenario.1 rows29 (by decide)

/-! ### Claim C10: empty-string asymmetry -/

/-- C10 counterexample: `rowsClamp` has a row with day 30 whose current-month
amount trims to the empty string, yet `todayDay = 28 < 30`: the claim's
"todayDayIndex at least d" fails because of the final clamp to
`currentMonthLen` (28 here, as day 30 carries no qualifying value). -/
theorem empty_string_today_cex :
    (∃ r ∈ rowsClamp, parseDayS r.base_month_day = 30 ∧
      jsTrim r.current_month_total_amount_released = "") ∧
    ¬ (30 : ℤ) ≤ (transformApiToNormalizedChart rowsClamp).2.todayDay := by
  exact ⟨⟨row30, by decide, by decide, by decide⟩, by decide⟩

/-- C10 (amended): a row with day `d ∈ [1, 31]` whose current-month amount
trims to the empty string pushes the pre-clamp today candidate to at least
`d`, so `todayDay ≥ min d currentMonthLen` (the clamp can cut it down to the
inferred length, but no further); and a row all of whose relevant amount
fields trim to empty strings never raises the pre-fallback month-length
candidate, since the qualifying test requires a non-empty value. -/
theorem empty_string_asymmetry :
    (∀ (rows : List ApiRow) (r : ApiRow), r ∈ rows →
      1 ≤ parseDayS r.base_month_day → parseDayS r.base_month_day ≤ 31 →
      jsTrim r.current_month_total_amount_released = "" →
      min (parseDayS r.base_month_day) ((transformApiToNormalizedChart rows).2.currentMonthLen) ≤
        (transformApiToNormalizedChart rows).2.todayDay) ∧
    (∀ (keys : List (ApiRow → String)) (L : ℤ) (r : ApiRow),
      (∀ k ∈ keys, jsTrim (k r) = "") → inferLenStep keys L r = L) := by
  constructor
  · intro rows r hr h1 h31 hempty
    have hne : rows ≠ [] := by
      intro hc
      subst hc
      cases hr
    rw [transform_ne rows hne]
    dsimp only
    have hpre : parseDayS r.base_month_day ≤ todayDayPre (sortedRows rows) := by
      apply todayDayPre_ge_day _ r (mem_sortedRows.mpr hr) (by omega)
      rw [hempty]
      decide
    unfold todayDayOf
    omega
  · intro keys L r hk
    unfold inferLenStep
    dsimp only
    by_cases hd : parseDayS r.base_month_day ≤ 0
    · rw [if_pos hd]
    · rw [if_neg hd, if_neg ?_]
      rw [show rowQualifies keys r = false from ?_]
      · simp
      · unfold rowQualifies
        rw [List.any_eq_false]
        intro k hkk
        dsimp only
        rw [hk k hkk]
        decide

theorem empty_string_asymmetry_witness :
    min (parseDayS row30.base_month_day)
        ((transformApiToNormalizedChart rowsClamp).2.currentMonthLen) ≤
      (transformApiToNormalizedChart rowsClamp).2.todayDay :=
  empty_string_asymmetry.1 rowsClamp row30 (by decide) (by decide) (by decide) (by decide)

/-! ### Claim C9: compact millions formatting -/

/-- C9: `formatBubble` divides by 1,000,000; when the result is below 10 it
takes the ceiling at one decimal place (`k = ⌈millions·10⌉`, printed as
`k / 10` alone when `10 ∣ k`, dropping the trailing `.0`, and as
`k / 10` point `k % 10` otherwise), and otherwise the ceiling to an integer;
in particular 2500000 formats as "2.5M", 2000000 as "2M", 9999999 as "10M"
and 0 as "0M". -/
theorem formatBubble_spec :
    (∀ v : ℚ, 0 ≤ v → v < 10000000 →
      formatBubble v =
        (if (⌈v / 1000000 * 10⌉ : ℤ) % 10 = 0
          then toString ((⌈v / 1000000 * 10⌉ : ℤ) / 10) ++ "M"
          else toString ((⌈v / 1000000 * 10⌉ : ℤ) / 10) ++ "." ++
            toString ((⌈v / 1000000 * 10⌉ : ℤ) % 10) ++ "M")) ∧
    (∀ v : ℚ, 0 ≤ v → 10000000 ≤ v →
      formatBubble v = toString (⌈v / 1000000⌉ : ℤ) ++ "M") ∧
    formatBubble 2500000 = "2.5M" ∧
    formatBubble 2000000 = "2M" ∧
    formatBubble 9999999 = "10M" ∧
    formatBubble 0 = "0M" := by
  refine ⟨?_, ?_, ?_, ?_, ?_, ?_⟩
  · intro v hv hlt
    unfold formatBubble
    rw [if_pos (by rw [div_lt_iff₀ (by norm_num : (0 : ℚ) < 1000000)]; linarith)]
  · intro v hv hge
    unfold formatBubble
    rw [if_neg (by rw [not_lt, le_div_iff₀ (by norm_num : (0 : ℚ) < 1000000)]; linarith)]
  · with_unfolding_all decide
  · with_unfolding_all decide
  · with_unfolding_all decide
  · with_unfolding_all decide

theorem formatBubble_spec_witness :
    formatBubble 2500000 =
      (if (⌈(2500000 : ℚ) / 1000000 * 10⌉ : ℤ) % 10 = 0
        then toString ((⌈(2500000 : ℚ) / 1000000 * 10⌉ : ℤ) / 10) ++ "M"
        else toString ((⌈(2500000 : ℚ) / 1000000 * 10⌉ : ℤ) / 10) ++ "." ++
          toString ((⌈(2500000 : ℚ) / 1000000 * 10⌉ : ℤ) % 10) ++ "M") :=
  formatBubble_spec.1 2500000 (by norm_num) (by norm_num)

/-! ### Claim C4: truncation of the current series at today -/

/-- C4: for non-empty input, `currentProgressX` is
`round(todayDay / currentMonthLen * 100)`, every output point with
`progressPercent` strictly greater than it has `currentValue` absent (null),
and every point with `progressPercent` at most it has `currentValue` present
and numeric. -/
theorem transform_truncation (rows : List ApiRow) (h : rows ≠ []) (x : ℕ) (hx : x ≤ 100) :
    (transformApiToNormalizedChart rows).2.currentProgressX =
      jround (((transformApiToNormalizedChart rows).2.todayDay : ℚ) /
        ((transformApiToNormalizedChart rows).2.currentMonthLen : ℚ) * 100) ∧
    ((x : ℤ) > (transformApiToNormalizedChart rows).2.currentProgressX →
      ((transformApiToNormalizedChart rows).1.getD x defaultRow).current = none) ∧
    ((x : ℤ) ≤ (transformApiToNormalizedChart rows).2.currentProgressX →
      ∃ q : ℚ, ((transformApiToNormalizedChart rows).1.getD x defaultRow).current = some q) := by
  rw [transform_ne rows h]
  dsimp only
  refine ⟨?_, ?_, ?_⟩
  · show cpxOf rows = jround ((todayDayOf rows : ℚ) / (currentLenOf rows : ℚ) * 100)
    unfold cpxOf
    have hpos : 0 < currentLenOf rows := inferLen_pos (sortedRows rows) currentKeys
    rw [if_pos hpos]
  · intro hgt
    rw [chartData_getD rows x (by omega)]
    simp only [chartPointOf]
    rw [if_pos hgt]
  · intro hle
    rw [chartData_getD rows x (by omega)]
    simp only [chartPointOf]
    rw [if_neg (by omega)]
    exact ⟨_, rfl⟩

theorem transform_truncation_witness :
    (transformApiToNormalizedChart rows1).2.currentProgressX =
      jround (((transformApiToNormalizedChart rows1).2.todayDay : ℚ) /
        ((transformApiToNormalizedChart rows1).2.currentMonthLen : ℚ) * 100) ∧
    (((0 : ℕ) : ℤ) > (transformApiToNormalizedChart rows1).2.currentProgressX →
      ((transformApiToNormalizedChart rows1).1.getD 0 defaultRow).current = none) ∧
    (((0 : ℕ) : ℤ) ≤ (transformApiToNormalizedChart rows1).2.currentProgressX →
      ∃ q : ℚ, ((transformApiToNormalizedChart rows1).1.getD 0 defaultRow).current = some q) :=
  transform_truncation rows1 (by decide) 0 (by norm_num)

/-! ### Claim C8: boundary values of the normalized series -/

theorem buildDaily_ne_nil (rows : List ApiRow) (key : ApiRow → String)
    (keys : List (ApiRow → String)) :
    buildDaily (byDayMap (sortedRows rows)) key (inferLen (sortedRows rows) keys) ≠ [] := by
  intro hc
  have hlen := buildDaily_length (byDayMap (sortedRows rows)) key (inferLen (sortedRows rows) keys)
  have h28 := inferLen_ge (sortedRows rows) keys
  rw [hc] at hlen
  simp only [List.length_nil] at hlen
  omega

theorem cum_last_sum (rows : List ApiRow) (key : ApiRow → String)
    (keys : List (ApiRow → String)) :
    getQ (cumulative (buildDaily (byDayMap (sortedRows rows)) key (inferLen (sortedRows rows) keys)))
        (inferLen (sortedRows rows) keys - 1) 0 =
      (buildDaily (byDayMap (sortedRows rows)) key (inferLen (sortedRows rows) keys)).sum := by
  have hlen := buildDaily_length (byDayMap (sortedRows rows)) key (inferLen (sortedRows rows) keys)
  have h28 := inferLen_ge (sortedRows rows) keys
  have hres := cumulative_last _ (buildDaily_ne_nil rows key keys)
  rw [hlen] at hres
  rw [Int.toNat_of_nonneg (by omega)] at hres
  exact hres

/-- C8: for non-empty input, all three series are 0 at the point with
progressPercent 0 (the current value is present there), and at
progressPercent 100 the lastYear and record series equal the total sum of
their parsed daily deltas over days 1 to their respective inferred month
length. -/
theorem transform_boundaries (rows : List ApiRow) (h : rows ≠ []) :
    (((transformApiToNormalizedChart rows).1.getD 0 defaultRow).current = some 0 ∧
      ((transformApiToNormalizedChart rows).1.getD 0 defaultRow).lastYear = 0 ∧
      ((transformApiToNormalizedChart rows).1.getD 0 defaultRow).record = 0) ∧
    ((transformApiToNormalizedChart rows).1.getD 100 defaultRow).lastYear =
      (buildDaily (byDayMap (sortedRows rows)) lyF (currentLenOf rows)).sum ∧
    ((transformApiToNormalizedChart rows).1.getD 100 defaultRow).record =
      (buildDaily (byDayMap (sortedRows rows)) recF (recordLenOf rows)).sum := by
  rw [transform_ne rows h]
  dsimp only
  rw [chartData_getD rows 0 (by norm_num), chartData_getD rows 100 (by norm_num)]
  simp only [chartPointOf]
  have hp0 : ((0 : ℕ) : ℚ) / 100 = 0 := by norm_num
  have hp1 : ((100 : ℕ) : ℚ) / 100 = 1 := by norm_num
  refine ⟨⟨?_, ?_, ?_⟩, ?_, ?_⟩
  · rw [if_neg (by have := cpxOf_nonneg rows; omega), hp0, cumAtProgress_zero]
  · rw [hp0, cumAtProgress_zero]
  · rw [hp0, cumAtProgress_zero]
  · have hposc : 0 < currentLenOf rows := inferLen_pos (sortedRows rows) currentKeys
    rw [hp1, cumAtProgress_one _ _ hposc]
    exact cum_last_sum rows lyF currentKeys
  · have hposr : 0 < recordLenOf rows := inferLen_pos (sortedRows rows) recordKeys
    rw [hp1, cumAtProgress_one _ _ hposr]
    exact cum_last_sum rows recF recordKeys

theorem transform_boundaries_witness :
    (((transformApiToNormalizedChart rows1).1.getD 0 defaultRow).current = some 0 ∧
      ((transformApiToNormalizedChart rows1).1.getD 0 defaultRow).lastYear = 0 ∧
      ((transformApiToNormalizedChart rows1).1.getD 0 defaultRow).record = 0) ∧
    ((transformApiToNormalizedChart rows1).1.getD 100 defaultRow).lastYear =
      (buildDaily (byDayMap (sortedRows rows1)) lyF (currentLenOf rows1)).sum ∧
    ((transformApiToNormalizedChart rows1).1.getD 100 defaultRow).record =
      (buildDaily (byDayMap (sortedRows rows1)) recF (recordLenOf rows1)).sum :=
  transform_boundaries rows1 (by decide)

/-! ### Claim C1: non-negativity and monotonicity of the rendered series -/

set_option maxRecDepth 100000 in
/-- C1 counterexample: a row whose amounts parse to -5 makes the last-year
series negative at progressPercent 1 and strictly below its value at
progressPercent 0, so the series of `transformApiToNormalizedChart` are not
non-negative and non-decreasing for every input row list. -/
theorem negative_delta_breaks_monotonicity :
    ((transformApiToNormalizedChart rowsNeg).1.getD 1 defaultRow).lastYear < 0 ∧
      ((transformApiToNormalizedChart rowsNeg).1.getD 1 defaultRow).lastYear <
        ((transformApiToNormalizedChart rowsNeg).1.getD 0 defaultRow).lastYear := by
  have h1 : (transformApiToNormalizedChart rowsNeg).1.getD 1 defaultRow =
      chartPointOf rowsNeg 1 := by
    rw [transform_ne rowsNeg (by decide)]
    exact chartData_getD rowsNeg 1 (by norm_num)
  have h0 : (transformApiToNormalizedChart rowsNeg).1.getD 0 defaultRow =
      chartPointOf rowsNeg 0 := by
    rw [transform_ne rowsNeg (by decide)]
    exact chartData_getD rowsNeg 0 (by norm_num)
  rw [h1, h0]
  exact ⟨by with_unfolding_all decide, by with_unfolding_all decide⟩

/-- C1 (amended): when every parsed daily amount of the three fields is
non-negative, each value series of the 101-point output is non-negative, and
between consecutive points each series is non-decreasing — the current series
compared on the points where it is present. -/
theorem normalize_monotone_of_nonneg (rows : List ApiRow)
    (h : ∀ r ∈ rows, 0 ≤ toNumber (JSVal.str (curF r)) ∧
      0 ≤ toNumber (JSVal.str (recF r)) ∧ 0 ≤ toNumber (JSVal.str (lyF r)))
    (x : ℕ) (hx : x ≤ 100) :
    (0 ≤ ((transformApiToNormalizedChart rows).1.getD x defaultRow).lastYear ∧
      0 ≤ ((transformApiToNormalizedChart rows).1.getD x defaultRow).record ∧
      ∀ a : ℚ, ((transformApiToNormalizedChart rows).1.getD x defaultRow).current = some a →
        0 ≤ a) ∧
    (x < 100 →
      ((transformApiToNormalizedChart rows).1.getD x defaultRow).lastYear ≤
          ((transformApiToNormalizedChart rows).1.getD (x + 1) defaultRow).lastYear ∧
        ((transformApiToNormalizedChart rows).1.getD x defaultRow).record ≤
          ((transformApiToNormalizedChart rows).1.getD (x + 1) defaultRow).record ∧
        ∀ a b : ℚ,
          ((transformApiToNormalizedChart rows).1.getD x defaultRow).current = some a →
          ((transformApiToNormalizedChart rows).1.getD (x + 1) defaultRow).current = some b →
          a ≤ b) := by
  by_cases hrow : rows = []
  · subst hrow
    have hdata : (transformApiToNormalizedChart ([] : List ApiRow)).1 =
        [{ x := 0, current := some 0, lastYear := 0, record := 0 }] := rfl
    rw [hdata]
    cases x with
    | zero =>
      simp only [List.getD_cons_zero, List.getD_cons_succ, List.getD_nil]
      refine ⟨⟨le_rfl, le_rfl, ?_⟩, fun _ => ⟨le_rfl, le_rfl, ?_⟩⟩
      · intro a ha
        injection ha with ha2
        rw [← ha2]
      · intro a b ha hb
        exact absurd hb (by simp [defaultRow])
    | succ n =>
      simp only [List.getD_cons_succ, List.getD_nil]
      refine ⟨⟨le_rfl, le_rfl, ?_⟩, fun _ => ⟨le_rfl, le_rfl, ?_⟩⟩
      · intro a ha
        exact absurd ha (by simp [defaultRow])
      · intro a b ha hb
        exact absurd ha (by simp [defaultRow])
  · have hlyN := cumulative_nonneg _ (buildDaily_nonneg rows lyF (currentLenOf rows)
      (fun r hr => (h r hr).2.2))
    have hrecN := cumulative_nonneg _ (buildDaily_nonneg rows recF (recordLenOf rows)
      (fun r hr => (h r hr).2.1))
    have hcurN := cumulative_nonneg _ (buildDaily_nonneg rows curF (currentLenOf rows)
      (fun r hr => (h r hr).1))
    have hlyS := cumulative_sorted _ (buildDaily_nonneg rows lyF (currentLenOf rows)
      (fun r hr => (h r hr).2.2))
    have hrecS := cumulative_sorted _ (buildDaily_nonneg rows recF (recordLenOf rows)
      (fun r hr => (h r hr).2.1))
    have hcurS := cumulative_sorted _ (buildDaily_nonneg rows curF (currentLenOf rows)
      (fun r hr => (h r hr).1))
    rw [transform_ne rows hrow]
    dsimp only
    rw [chartData_getD rows x (by omega)]
    constructor
    · simp only [chartPointOf]
      refine ⟨cumAtProgress_nonneg _ _ _ hlyN, cumAtProgress_nonneg _ _ _ hrecN, ?_⟩
      intro a ha
      split at ha
      · cases ha
      · injection ha with ha2
        rw [← ha2]
        exact cumAtProgress_nonneg _ _ _ hcurN
    · intro hlt
      rw [chartData_getD rows (x + 1) (by omega)]
      have hpq : ((x : ℕ) : ℚ) / 100 ≤ (((x + 1 : ℕ)) : ℚ) / 100 := by
        have hc : ((x : ℕ) : ℚ) ≤ (((x + 1 : ℕ)) : ℚ) := by exact_mod_cast Nat.le_succ x
        linarith
      simp only [chartPointOf]
      refine ⟨?_, ?_, ?_⟩
      · exact cumAtProgress_mono _ _ (inferLen_pos (sortedRows rows) currentKeys)
          (lastYearCumOf_length rows) hlyS hlyN hpq
      · exact cumAtProgress_mono _ _ (inferLen_pos (sortedRows rows) recordKeys)
          (recordCumOf_length rows) hrecS hrecN hpq
      · intro a b ha hb
        split at ha
        · cases ha
        · split at hb
          · cases hb
          · injection ha with ha2
            injection hb with hb2
            rw [← ha2, ← hb2]
            exact cumAtProgress_mono _ _ (inferLen_pos (sortedRows rows) currentKeys)
              (currentCumOf_length rows) hcurS hcurN hpq

theorem normalize_monotone_witness :
    (0 ≤ ((transformApiToNormalizedChart rows1).1.getD 0 defaultRow).lastYear ∧
      0 ≤ ((transformApiToNormalizedChart rows1).1.getD 0 defaultRow).record ∧
      ∀ a : ℚ, ((transformApiToNormalizedChart rows1).1.getD 0 defaultRow).current = some a →
        0 ≤ a) ∧
    (0 < 100 →
      ((transformApiToNormalizedChart rows1).1.getD 0 defaultRow).lastYear ≤
          ((transformApiToNormalizedChart rows1).1.getD (0 + 1) defaultRow).lastYear ∧
        ((transformApiToNormalizedChart rows1).1.getD 0 defaultRow).record ≤
          ((transformApiToNormalizedChart rows1).1.getD (0 + 1) defaultRow).record ∧
        ∀ a b : ℚ,
          ((transformApiToNormalizedChart rows1).1.getD 0 defaultRow).current = some a →
          ((transformApiToNormalizedChart rows1).1.getD (0 + 1) defaultRow).current = some b →
          a ≤ b) :=
  normalize_monotone_of_nonneg rows1 (by with_unfolding_all decide) 0 (by norm_num)

end Pollen
